import Mathlib

/-!
Shallow embedding of `src/repeat.py`: a retry decorator with a blocking
(synchronous) wrapper and a suspending (asynchronous) wrapper.

Modelling choices:
* A Python exception object is an `Exc`: its runtime type (`ExcType`, carrying
  the type's id and the ids of all its proper superclasses, i.e. the MRO above
  it) plus a `payload` distinguishing individual objects.
* The `except exceptions as ex` clause performs an isinstance test: the caught
  exception's runtime type must be one of the configured classes or a subclass
  of one; `catches` embeds that test.
* A wrapped operation is a black box observed once per attempt, so it is
  embedded as `op : Nat → Except Exc α`, giving the outcome of the (0-based)
  i-th invocation.
* One invocation of a wrapper is a terminating loop `for attempt in
  range(tries)`; it is embedded as structural recursion on the number of
  remaining iterations (`fuel`), started at `fuel = tries`, `attempt = 0`.
* Delays are exact rationals (`ℚ`); `time.sleep`/`asyncio.sleep` calls are
  recorded in a `waits` trace (tagged by how the wait is realized), and the
  two `logger` calls are recorded in a `logs` trace.
* `raise last_exception` with `last_exception = None` (reachable only when the
  loop body never ran) raises a `TypeError` from inside the wrapper itself;
  that wrapper-originated error is the distinguished outcome `raiseNone`.
-/

namespace RepeatPy

/-- Type id of Python's `BaseException`. -/
def baseExceptionK : Nat := 0

/-- Type id of Python's `Exception` (the default value of `exceptions`). -/
def exceptionK : Nat := 1

/-- Type id of `asyncio.CancelledError` (derives from `BaseException` only,
not from `Exception`, since Python 3.8). -/
def cancelledErrorK : Nat := 2

/-- A Python exception class: its own id and the ids of all proper
superclasses (its MRO above itself). -/
structure ExcType where
  id : Nat
  ancestors : List Nat
deriving DecidableEq, Repr

/-- `isinstance`-style test: the runtime type `t` is the class `k` itself or a
subclass of it. -/
def isSubclass (t : ExcType) (k : Nat) : Bool :=
  t.id == k || t.ancestors.contains k

/-- A Python exception object: runtime type plus a payload identifying the
object (its message / identity). -/
structure Exc where
  ty : ExcType
  payload : Nat
deriving DecidableEq, Repr

/-- The `except exceptions as ex` filter of `wrapper_sync` / `wrapper_async`
(`src/repeat.py:58,94`): the exception is caught iff its runtime type is, or
derives from, one of the configured classes. A single configured class is the
singleton list. -/
def catches (excs : List Nat) (e : Exc) : Bool :=
  excs.any fun k => isSubclass e.ty k

/-- The keyword options of `__repeat__` (`src/repeat.py:16-22`) with their
default values: `tries=5`, `delay=0.0`, `exceptions=Exception`,
`backoff=1.0`. -/
structure Config where
  tries : Nat := 5
  delay : ℚ := 0
  exceptions : List Nat := [exceptionK]
  backoff : ℚ := 1
deriving DecidableEq, Repr

/-- One recorded inter-attempt wait: `time.sleep` blocks the calling thread
(`block`), `await asyncio.sleep` suspends the task (`susp`). -/
inductive Wait where
  | block (d : ℚ)
  | susp (d : ℚ)
deriving DecidableEq, Repr

/-- One recorded log emission: the warning of a retried attempt
(1-based attempt number, total tries, the failure, the upcoming delay) or the
error of exhaustion (total tries, the final failure). -/
inductive LogMsg where
  | warning (attempt : Nat) (tries : Nat) (e : Exc) (delay : ℚ)
  | error (tries : Nat) (e : Exc)
deriving DecidableEq, Repr

/-- What one invocation of a wrapper finally does: return a value, re-raise an
exception object raised by the operation, or fail with the wrapper's own
`TypeError` from `raise last_exception` while `last_exception is None`. -/
inductive Propagated (α : Type) where
  | ok (v : α)
  | raised (e : Exc)
  | raiseNone
deriving DecidableEq, Repr

/-- The observable behaviour of one invocation of a wrapper: its outcome, how
many times the wrapped operation was invoked, the sleeps performed and the log
messages emitted, in order. -/
structure RunResult (α : Type) where
  outcome : Propagated α
  invocations : Nat
  waits : List Wait
  logs : List LogMsg
deriving DecidableEq, Repr

/-- The loop body of `wrapper_sync` (`src/repeat.py:51-74`), by recursion on
the remaining iterations of `for attempt in range(tries)`. State carried
between iterations: `attempt`, `current_delay` (`d`) and `last_exception`. -/
def syncLoop (op : Nat → Except Exc α) (excs : List Nat) (tries : Nat)
    (backoff : ℚ) : Nat → Nat → ℚ → Option Exc → RunResult α
  | 0, _, _, none => ⟨.raiseNone, 0, [], []⟩
  | 0, _, _, some e => ⟨.raised e, 0, [], []⟩
  | fuel + 1, attempt, d, _ =>
    match op attempt with
    | .ok v => ⟨.ok v, 1, [], []⟩
    | .error ex =>
      if catches excs ex then
        if attempt < tries - 1 then
          let rest := syncLoop op excs tries backoff fuel (attempt + 1) (d * backoff) (some ex)
          ⟨rest.outcome, rest.invocations + 1,
            (if 0 < d then [Wait.block d] else []) ++ rest.waits,
            LogMsg.warning (attempt + 1) tries ex d :: rest.logs⟩
        else
          let rest := syncLoop op excs tries backoff fuel (attempt + 1) d (some ex)
          ⟨rest.outcome, rest.invocations + 1, rest.waits,
            LogMsg.error tries ex :: rest.logs⟩
      else ⟨.raised ex, 1, [], []⟩

/-- The loop body of `wrapper_async` (`src/repeat.py:84-110`): identical
control flow, but the inter-attempt wait is `await asyncio.sleep`, a
suspension of the task rather than a thread block. -/
def asyncLoop (op : Nat → Except Exc α) (excs : List Nat) (tries : Nat)
    (backoff : ℚ) : Nat → Nat → ℚ → Option Exc → RunResult α
  | 0, _, _, none => ⟨.raiseNone, 0, [], []⟩
  | 0, _, _, some e => ⟨.raised e, 0, [], []⟩
  | fuel + 1, attempt, d, _ =>
    match op attempt with
    | .ok v => ⟨.ok v, 1, [], []⟩
    | .error ex =>
      if catches excs ex then
        if attempt < tries - 1 then
          let rest := asyncLoop op excs tries backoff fuel (attempt + 1) (d * backoff) (some ex)
          ⟨rest.outcome, rest.invocations + 1,
            (if 0 < d then [Wait.susp d] else []) ++ rest.waits,
            LogMsg.warning (attempt + 1) tries ex d :: rest.logs⟩
        else
          let rest := asyncLoop op excs tries backoff fuel (attempt + 1) d (some ex)
          ⟨rest.outcome, rest.invocations + 1, rest.waits,
            LogMsg.error tries ex :: rest.logs⟩
      else ⟨.raised ex, 1, [], []⟩

/-- One invocation of the blocking wrapper returned by `_create_sync_wrapper`
(`src/repeat.py:46-76`): `last_exception = None`, `current_delay = delay`,
then the loop over `range(tries)`. -/
def wrapper_sync (cfg : Config) (op : Nat → Except Exc α) : RunResult α :=
  syncLoop op cfg.exceptions cfg.tries cfg.backoff cfg.tries 0 cfg.delay none

/-- One invocation of the suspending wrapper returned by
`_create_async_wrapper` (`src/repeat.py:79-112`). -/
def wrapper_async (cfg : Config) (op : Nat → Except Exc α) : RunResult α :=
  asyncLoop op cfg.exceptions cfg.tries cfg.backoff cfg.tries 0 cfg.delay none

/-- Which wrapper `__repeat__` builds: blocking for a plain function,
suspending for a coroutine function (`src/repeat.py:33-37`). -/
inductive Mode where
  | sync
  | async
deriving DecidableEq, Repr

/-- The decorator `__repeat__` (`src/repeat.py:16-42`): dispatch on the
operation's mode, binding the configuration to it. -/
def __repeat__ (m : Mode) (cfg : Config) (op : Nat → Except Exc α) : RunResult α :=
  match m with
  | .sync => wrapper_sync cfg op
  | .async => wrapper_async cfg op

/-- Concrete exception classes used in witnesses. -/
def ExceptionType : ExcType := ⟨exceptionK, [baseExceptionK]⟩

def ValueErrorType : ExcType := ⟨3, [exceptionK, baseExceptionK]⟩

def RuntimeErrorType : ExcType := ⟨4, [exceptionK, baseExceptionK]⟩

def CancelledErrorType : ExcType := ⟨cancelledErrorK, [baseExceptionK]⟩

/-- The loop body of `wrapper_async` with the environment's delivery of
task-cancellation at the delay suspension point made explicit: `sleepAt j`
tells what `await asyncio.sleep(current_delay)` after attempt `j` does —
`none` if the sleep completes, `some c` if the scheduler delivers the
exception `c` (a `CancelledError`) while the task is suspended in the sleep.
In the source (`src/repeat.py:103-104`) that `await` sits inside the
`except` handler, outside the `try`, so an exception raised there is never
examined by the `except exceptions` filter: it aborts the loop at once,
after the retry warning of the current attempt was already emitted and
before the interrupted sleep completes. On attempts where no sleep is
executed (final attempt, or `current_delay <= 0`) there is no such
suspension point, so `sleepAt` is not consulted. -/
def asyncLoopCancel (op : Nat → Except Exc α) (sleepAt : Nat → Option Exc)
    (excs : List Nat) (tries : Nat) (backoff : ℚ) :
    Nat → Nat → ℚ → Option Exc → RunResult α
  | 0, _, _, none => ⟨.raiseNone, 0, [], []⟩
  | 0, _, _, some e => ⟨.raised e, 0, [], []⟩
  | fuel + 1, attempt, d, _ =>
    match op attempt with
    | .ok v => ⟨.ok v, 1, [], []⟩
    | .error ex =>
      if catches excs ex then
        if attempt < tries - 1 then
          if 0 < d then
            match sleepAt attempt with
            | some c => ⟨.raised c, 1, [], [LogMsg.warning (attempt + 1) tries ex d]⟩
            | none =>
              let rest := asyncLoopCancel op sleepAt excs tries backoff fuel
                (attempt + 1) (d * backoff) (some ex)
              ⟨rest.outcome, rest.invocations + 1, Wait.susp d :: rest.waits,
                LogMsg.warning (attempt + 1) tries ex d :: rest.logs⟩
          else
            let rest := asyncLoopCancel op sleepAt excs tries backoff fuel
              (attempt + 1) (d * backoff) (some ex)
            ⟨rest.outcome, rest.invocations + 1, rest.waits,
              LogMsg.warning (attempt + 1) tries ex d :: rest.logs⟩
        else
          let rest := asyncLoopCancel op sleepAt excs tries backoff fuel
            (attempt + 1) d (some ex)
          ⟨rest.outcome, rest.invocations + 1, rest.waits,
            LogMsg.error tries ex :: rest.logs⟩
      else ⟨.raised ex, 1, [], []⟩

/-- One invocation of the suspending wrapper under an explicit schedule of
cancellation deliveries at the delay suspension points. -/
def wrapper_async_cancel (cfg : Config) (op : Nat → Except Exc α)
    (sleepAt : Nat → Option Exc) : RunResult α :=
  asyncLoopCancel op sleepAt cfg.exceptions cfg.tries cfg.backoff cfg.tries 0 cfg.delay none

end RepeatPy

namespace RepeatPy

/-- Re-tag a wait as a suspension: the only observable difference between the
two wrappers. -/
def retagWait : Wait → Wait
  | .block d => .susp d
  | .susp d => .susp d

/-- The async loop is the sync loop with every block-wait realized as a
suspension instead. -/
lemma asyncLoop_eq_syncLoop (op : Nat → Except Exc α) (excs : List Nat)
    (tries : Nat) (b : ℚ) :
    ∀ fuel attempt d le,
      asyncLoop op excs tries b fuel attempt d le =
        ⟨(syncLoop op excs tries b fuel attempt d le).outcome,
         (syncLoop op excs tries b fuel attempt d le).invocations,
         ((syncLoop op excs tries b fuel attempt d le).waits).map retagWait,
         (syncLoop op excs tries b fuel attempt d le).logs⟩ := by
  intro fuel
  induction fuel with
  | zero => intro attempt d le; cases le <;> rfl
  | succ n ih =>
    intro attempt d le
    cases hop : op attempt with
    | ok v => simp [asyncLoop, syncLoop, hop]
    | error ex =>
      by_cases hc : catches excs ex
      · by_cases ha : attempt < tries - 1
        · by_cases hd : 0 < d <;>
            simp [asyncLoop, syncLoop, hop, hc, ha, hd, ih, retagWait]
        · simp [asyncLoop, syncLoop, hop, hc, ha, ih]
      · simp [asyncLoop, syncLoop, hop, hc]

/-- One-step equation: the attempt succeeds. -/
lemma syncLoop_ok (op : Nat → Except Exc α) (excs : List Nat) (tries : Nat)
    (b : ℚ) (fuel attempt : Nat) (d : ℚ) (lx : Option Exc) (v : α)
    (hop : op attempt = .ok v) :
    syncLoop op excs tries b (fuel + 1) attempt d lx = ⟨.ok v, 1, [], []⟩ := by
  simp [syncLoop, hop]

/-- One-step equation: the attempt raises an exception the filter does not
catch. -/
lemma syncLoop_uncaught (op : Nat → Except Exc α) (excs : List Nat)
    (tries : Nat) (b : ℚ) (fuel attempt : Nat) (d : ℚ) (lx : Option Exc)
    (ex : Exc) (hop : op attempt = .error ex) (hc : catches excs ex = false) :
    syncLoop op excs tries b (fuel + 1) attempt d lx = ⟨.raised ex, 1, [], []⟩ := by
  simp [syncLoop, hop, hc]

/-- One-step equation: the attempt raises a caught exception on a non-final
attempt; the wrapper logs a warning, sleeps if the current delay is positive,
multiplies the delay by the backoff and retries. -/
lemma syncLoop_retry (op : Nat → Except Exc α) (excs : List Nat) (tries : Nat)
    (b : ℚ) (fuel attempt : Nat) (d : ℚ) (lx : Option Exc) (ex : Exc)
    (hop : op attempt = .error ex) (hc : catches excs ex = true)
    (ha : attempt < tries - 1) :
    syncLoop op excs tries b (fuel + 1) attempt d lx =
      ⟨(syncLoop op excs tries b fuel (attempt + 1) (d * b) (some ex)).outcome,
       (syncLoop op excs tries b fuel (attempt + 1) (d * b) (some ex)).invocations + 1,
       (if 0 < d then [Wait.block d] else []) ++
         (syncLoop op excs tries b fuel (attempt + 1) (d * b) (some ex)).waits,
       LogMsg.warning (attempt + 1) tries ex d ::
         (syncLoop op excs tries b fuel (attempt + 1) (d * b) (some ex)).logs⟩ := by
  simp [syncLoop, hop, hc, ha]

/-- One-step equation: the attempt raises a caught exception on the final
attempt; the wrapper logs the exhaustion error and the loop ends. -/
lemma syncLoop_last (op : Nat → Except Exc α) (excs : List Nat) (tries : Nat)
    (b : ℚ) (fuel attempt : Nat) (d : ℚ) (lx : Option Exc) (ex : Exc)
    (hop : op attempt = .error ex) (hc : catches excs ex = true)
    (ha : ¬ attempt < tries - 1) :
    syncLoop op excs tries b (fuel + 1) attempt d lx =
      ⟨(syncLoop op excs tries b fuel (attempt + 1) d (some ex)).outcome,
       (syncLoop op excs tries b fuel (attempt + 1) d (some ex)).invocations + 1,
       (syncLoop op excs tries b fuel (attempt + 1) d (some ex)).waits,
       LogMsg.error tries ex ::
         (syncLoop op excs tries b fuel (attempt + 1) d (some ex)).logs⟩ := by
  simp [syncLoop, hop, hc, ha]

/-- If every attempt in the remaining window fails with a caught exception,
the loop runs all remaining iterations and ends by re-raising the exception of
the final attempt. -/
lemma syncLoop_allFail (op : Nat → Except Exc α) (excs : List Nat)
    (tries : Nat) (b : ℚ) (eN : Exc) (hlast : op (tries - 1) = .error eN) :
    ∀ fuel attempt d lx, attempt + fuel = tries → 1 ≤ fuel →
      (∀ j, attempt ≤ j → j < tries → ∃ e, op j = .error e ∧ catches excs e = true) →
      (syncLoop op excs tries b fuel attempt d lx).outcome = .raised eN ∧
      (syncLoop op excs tries b fuel attempt d lx).invocations = fuel := by
  intro fuel
  induction fuel with
  | zero => intro attempt d lx _ h1 _; omega
  | succ n ih =>
    intro attempt d lx htot _ hfail
    obtain ⟨e, hop, hcatch⟩ := hfail attempt (Nat.le_refl _) (by omega)
    cases n with
    | zero =>
      have hatt : attempt = tries - 1 := by omega
      have ha : ¬ attempt < tries - 1 := by omega
      have he : e = eN := by
        rw [hatt, hlast] at hop
        exact ((Except.error.injEq _ _).mp hop).symm
      subst he
      rw [syncLoop_last op excs tries b 0 attempt d lx e hop hcatch ha]
      simp [syncLoop]
    | succ m =>
      have ha : attempt < tries - 1 := by omega
      have hrest := ih (attempt + 1) (d * b) (some e) (by omega) (by omega)
        (fun j hj hj2 => hfail j (by omega) hj2)
      rw [syncLoop_retry op excs tries b (m + 1) attempt d lx e hop hcatch ha]
      exact ⟨hrest.1, by rw [show (⟨_, _, _, _⟩ : RunResult α).invocations =
        (syncLoop op excs tries b (m + 1) (attempt + 1) (d * b) (some e)).invocations + 1
        from rfl, hrest.2]⟩

/-- If every attempt in the remaining window fails with a caught exception and
both the entry delay and the backoff are positive, the loop performs one sleep
per non-final attempt, the i-th sleep (0-based) lasting `d * b ^ i`. -/
lemma syncLoop_allFail_waits (op : Nat → Except Exc α) (excs : List Nat)
    (tries : Nat) (b : ℚ) (hb : 0 < b) :
    ∀ fuel attempt d lx, attempt + fuel = tries → 1 ≤ fuel → 0 < d →
      (∀ j, attempt ≤ j → j < tries → ∃ e, op j = .error e ∧ catches excs e = true) →
      (syncLoop op excs tries b fuel attempt d lx).waits =
        (List.range (fuel - 1)).map fun j => Wait.block (d * b ^ j) := by
  intro fuel
  induction fuel with
  | zero => intro attempt d lx _ h1 _ _; omega
  | succ n ih =>
    intro attempt d lx htot _ hd hfail
    obtain ⟨e, hop, hcatch⟩ := hfail attempt (Nat.le_refl _) (by omega)
    cases n with
    | zero =>
      have ha : ¬ attempt < tries - 1 := by omega
      rw [syncLoop_last op excs tries b 0 attempt d lx e hop hcatch ha]
      simp [syncLoop]
    | succ m =>
      have ha : attempt < tries - 1 := by omega
      have hrest := ih (attempt + 1) (d * b) (some e) (by omega) (by omega)
        (mul_pos hd hb) (fun j hj hj2 => hfail j (by omega) hj2)
      rw [syncLoop_retry op excs tries b (m + 1) attempt d lx e hop hcatch ha]
      show (if 0 < d then [Wait.block d] else []) ++
          (syncLoop op excs tries b (m + 1) (attempt + 1) (d * b) (some e)).waits = _
      rw [if_pos hd, hrest]
      simp only [Nat.add_sub_cancel, List.range_succ_eq_map, List.map_cons,
        List.map_map, List.cons_append, List.nil_append, pow_zero, mul_one]
      congr 1
      refine List.map_congr_left fun j _ => ?_
      simp only [Function.comp_apply]
      refine congrArg Wait.block ?_
      show d * b * b ^ j = d * b ^ (j + 1)
      ring

/-- If the attempts at relative indices `0 .. k-1` of the remaining window
fail with caught exceptions and the attempt at relative index `k` succeeds
with `v`, the loop returns `v` after exactly `k + 1` invocations. -/
lemma syncLoop_succeeds (op : Nat → Except Exc α) (excs : List Nat)
    (tries : Nat) (b : ℚ) (v : α) :
    ∀ fuel k attempt d lx, attempt + fuel = tries → k < fuel →
      (∀ j, attempt ≤ j → j < attempt + k → ∃ e, op j = .error e ∧ catches excs e = true) →
      op (attempt + k) = .ok v →
      (syncLoop op excs tries b fuel attempt d lx).outcome = .ok v ∧
      (syncLoop op excs tries b fuel attempt d lx).invocations = k + 1 := by
  intro fuel
  induction fuel with
  | zero => intro k attempt d lx _ hk _ _; omega
  | succ n ih =>
    intro k attempt d lx htot hk hfail hok
    cases k with
    | zero =>
      rw [syncLoop_ok op excs tries b n attempt d lx v (by simpa using hok)]
      exact ⟨rfl, rfl⟩
    | succ k =>
      obtain ⟨e, hop, hcatch⟩ := hfail attempt (Nat.le_refl _) (by omega)
      have ha : attempt < tries - 1 := by omega
      have hrest := ih k (attempt + 1) (d * b) (some e) (by omega) (by omega)
        (fun j hj hj2 => hfail j (by omega) (by omega))
        (by rw [show attempt + 1 + k = attempt + (k + 1) from by omega]; exact hok)
      rw [syncLoop_retry op excs tries b n attempt d lx e hop hcatch ha]
      exact ⟨hrest.1, by rw [show (⟨_, _, _, _⟩ : RunResult α).invocations =
        (syncLoop op excs tries b n (attempt + 1) (d * b) (some e)).invocations + 1
        from rfl, hrest.2]⟩

/-- Whenever the loop's outcome is a re-raised exception, that exception is
either the entry `last_exception` (possible only if no iteration ran) or
exactly the exception the operation raised on the final invocation performed. -/
lemma syncLoop_raised (op : Nat → Except Exc α) (excs : List Nat)
    (tries : Nat) (b : ℚ) :
    ∀ fuel attempt d lx e,
      (syncLoop op excs tries b fuel attempt d lx).outcome = .raised e →
      (lx = some e ∧ (syncLoop op excs tries b fuel attempt d lx).invocations = 0) ∨
      (1 ≤ (syncLoop op excs tries b fuel attempt d lx).invocations ∧
        op (attempt + (syncLoop op excs tries b fuel attempt d lx).invocations - 1) = .error e) := by
  intro fuel
  induction fuel with
  | zero =>
    intro attempt d lx e h
    cases lx with
    | none => exact absurd h (by simp [syncLoop])
    | some e0 =>
      left
      refine ⟨?_, rfl⟩
      have : e0 = e := by simpa [syncLoop, Propagated.raised.injEq] using h
      rw [this]
  | succ n ih =>
    intro attempt d lx e h
    cases hop : op attempt with
    | ok v =>
      rw [syncLoop_ok op excs tries b n attempt d lx v hop] at h
      exact absurd h (by simp)
    | error ex =>
      by_cases hc : catches excs ex
      · by_cases ha : attempt < tries - 1
        · have houtcome : (syncLoop op excs tries b (n + 1) attempt d lx).outcome =
              (syncLoop op excs tries b n (attempt + 1) (d * b) (some ex)).outcome := by
            rw [syncLoop_retry op excs tries b n attempt d lx ex hop hc ha]
          have hinv : (syncLoop op excs tries b (n + 1) attempt d lx).invocations =
              (syncLoop op excs tries b n (attempt + 1) (d * b) (some ex)).invocations + 1 := by
            rw [syncLoop_retry op excs tries b n attempt d lx ex hop hc ha]
          rw [houtcome] at h
          right
          rcases ih (attempt + 1) (d * b) (some ex) e h with ⟨hsome, hzero⟩ | ⟨hpos, hat⟩
          · obtain rfl : ex = e := by injection hsome
            refine ⟨by omega, ?_⟩
            rw [hinv, hzero, show attempt + (0 + 1) - 1 = attempt from by omega]
            exact hop
          · refine ⟨by omega, ?_⟩
            rw [hinv, show attempt +
              ((syncLoop op excs tries b n (attempt + 1) (d * b) (some ex)).invocations + 1) - 1 =
              attempt + 1 + (syncLoop op excs tries b n (attempt + 1) (d * b) (some ex)).invocations - 1
              from by omega]
            exact hat
        · have houtcome : (syncLoop op excs tries b (n + 1) attempt d lx).outcome =
              (syncLoop op excs tries b n (attempt + 1) d (some ex)).outcome := by
            rw [syncLoop_last op excs tries b n attempt d lx ex hop hc ha]
          have hinv : (syncLoop op excs tries b (n + 1) attempt d lx).invocations =
              (syncLoop op excs tries b n (attempt + 1) d (some ex)).invocations + 1 := by
            rw [syncLoop_last op excs tries b n attempt d lx ex hop hc ha]
          rw [houtcome] at h
          right
          rcases ih (attempt + 1) d (some ex) e h with ⟨hsome, hzero⟩ | ⟨hpos, hat⟩
          · obtain rfl : ex = e := by injection hsome
            refine ⟨by omega, ?_⟩
            rw [hinv, hzero, show attempt + (0 + 1) - 1 = attempt from by omega]
            exact hop
          · refine ⟨by omega, ?_⟩
            rw [hinv, show attempt +
              ((syncLoop op excs tries b n (attempt + 1) d (some ex)).invocations + 1) - 1 =
              attempt + 1 + (syncLoop op excs tries b n (attempt + 1) d (some ex)).invocations - 1
              from by omega]
            exact hat
      · have hc' : catches excs ex = false := by simpa using hc
        rw [syncLoop_uncaught op excs tries b n attempt d lx ex hop hc'] at h ⊢
        obtain rfl : ex = e := by simpa [Propagated.raised.injEq] using h
        right
        exact ⟨Nat.le_refl 1, by simpa using hop⟩

/-- The loop ends in the wrapper's own `raise None` failure only when it never
ran an iteration and entered with `last_exception = None`. -/
lemma syncLoop_raiseNone (op : Nat → Except Exc α) (excs : List Nat)
    (tries : Nat) (b : ℚ) :
    ∀ fuel attempt d lx,
      (syncLoop op excs tries b fuel attempt d lx).outcome = .raiseNone →
      fuel = 0 ∧ lx = none := by
  intro fuel
  induction fuel with
  | zero =>
    intro attempt d lx h
    cases lx with
    | none => exact ⟨rfl, rfl⟩
    | some e0 => exact absurd h (by simp [syncLoop])
  | succ n ih =>
    intro attempt d lx h
    cases hop : op attempt with
    | ok v =>
      rw [syncLoop_ok op excs tries b n attempt d lx v hop] at h
      exact absurd h (by simp)
    | error ex =>
      by_cases hc : catches excs ex
      · by_cases ha : attempt < tries - 1
        · have houtcome : (syncLoop op excs tries b (n + 1) attempt d lx).outcome =
              (syncLoop op excs tries b n (attempt + 1) (d * b) (some ex)).outcome := by
            rw [syncLoop_retry op excs tries b n attempt d lx ex hop hc ha]
          rw [houtcome] at h
          exact absurd (ih (attempt + 1) (d * b) (some ex) h).2 (by simp)
        · have houtcome : (syncLoop op excs tries b (n + 1) attempt d lx).outcome =
              (syncLoop op excs tries b n (attempt + 1) d (some ex)).outcome := by
            rw [syncLoop_last op excs tries b n attempt d lx ex hop hc ha]
          rw [houtcome] at h
          exact absurd (ih (attempt + 1) d (some ex) h).2 (by simp)
      · have hc' : catches excs ex = false := by simpa using hc
        rw [syncLoop_uncaught op excs tries b n attempt d lx ex hop hc'] at h
        exact absurd h (by simp)

/-- The suspending wrapper returns exactly the blocking wrapper's behaviour
with every thread-blocking wait realized as a suspension. -/
lemma wrapper_async_eq (cfg : Config) (op : Nat → Except Exc α) :
    wrapper_async cfg op =
      ⟨(wrapper_sync cfg op).outcome, (wrapper_sync cfg op).invocations,
       ((wrapper_sync cfg op).waits).map retagWait, (wrapper_sync cfg op).logs⟩ :=
  asyncLoop_eq_syncLoop op cfg.exceptions cfg.tries cfg.backoff cfg.tries 0 cfg.delay none

/-- Both modes produce the same outcome. -/
lemma repeat_outcome (m : Mode) (cfg : Config) (op : Nat → Except Exc α) :
    (__repeat__ m cfg op).outcome = (wrapper_sync cfg op).outcome := by
  cases m
  · rfl
  · show (wrapper_async cfg op).outcome = _
    rw [wrapper_async_eq]

/-- Both modes invoke the operation the same number of times. -/
lemma repeat_invocations (m : Mode) (cfg : Config) (op : Nat → Except Exc α) :
    (__repeat__ m cfg op).invocations = (wrapper_sync cfg op).invocations := by
  cases m
  · rfl
  · show (wrapper_async cfg op).invocations = _
    rw [wrapper_async_eq]

/-- Both modes emit the same log messages. -/
lemma repeat_logs (m : Mode) (cfg : Config) (op : Nat → Except Exc α) :
    (__repeat__ m cfg op).logs = (wrapper_sync cfg op).logs := by
  cases m
  · rfl
  · show (wrapper_async cfg op).logs = _
    rw [wrapper_async_eq]

/-- A first-attempt exception the filter does not catch escapes the blocking
wrapper at once: one invocation, no sleep, no log. -/
lemma wrapper_sync_uncaught_first (cfg : Config) (op : Nat → Except Exc α)
    (e : Exc) (h1 : 1 ≤ cfg.tries) (hop : op 0 = .error e)
    (hnc : catches cfg.exceptions e = false) :
    wrapper_sync cfg op = ⟨.raised e, 1, [], []⟩ := by
  show syncLoop op cfg.exceptions cfg.tries cfg.backoff cfg.tries 0 cfg.delay none = _
  rw [show cfg.tries = cfg.tries - 1 + 1 from by omega]
  exact syncLoop_uncaught op cfg.exceptions (cfg.tries - 1 + 1) cfg.backoff
    (cfg.tries - 1) 0 cfg.delay none e hop hnc

/-- A first-attempt exception the filter does not catch escapes the suspending
wrapper at once: one invocation, no sleep, no log. -/
lemma wrapper_async_uncaught_first (cfg : Config) (op : Nat → Except Exc α)
    (e : Exc) (h1 : 1 ≤ cfg.tries) (hop : op 0 = .error e)
    (hnc : catches cfg.exceptions e = false) :
    wrapper_async cfg op = ⟨.raised e, 1, [], []⟩ := by
  rw [wrapper_async_eq, wrapper_sync_uncaught_first cfg op e h1 hop hnc]
  rfl

/-- C1: for every configuration with `tries = N` (N ≥ 1) and every operation
that raises a retryable failure on every attempt, the wrapper — in either
mode — invokes the operation exactly N times, and the failure it finally
propagates is the one raised on the Nth (last) attempt. -/
theorem C1_exhaustion_runs_all_tries (m : Mode) (cfg : Config)
    (op : Nat → Except Exc α) (eN : Exc) (h1 : 1 ≤ cfg.tries)
    (hfail : ∀ i, i < cfg.tries →
      ∃ e, op i = .error e ∧ catches cfg.exceptions e = true)
    (hlast : op (cfg.tries - 1) = .error eN) :
    (__repeat__ m cfg op).invocations = cfg.tries ∧
    (__repeat__ m cfg op).outcome = .raised eN := by
  have hs := syncLoop_allFail op cfg.exceptions cfg.tries cfg.backoff eN hlast
    cfg.tries 0 cfg.delay none (Nat.zero_add _) h1 (fun j _ hj => hfail j hj)
  rw [repeat_invocations, repeat_outcome]
  exact ⟨hs.2, hs.1⟩

/-- Witness for C1: `tries = 3`, an operation always raising a `ValueError`
whose payload is the attempt index: 3 invocations, and the propagated failure
is the third attempt's object (payload 2). -/
theorem C1_exhaustion_runs_all_tries_witness :
    (__repeat__ .sync ⟨3, 0, [exceptionK], 1⟩
        (fun i => (.error ⟨ValueErrorType, i⟩ : Except Exc Nat))).invocations = 3 ∧
    (__repeat__ .sync ⟨3, 0, [exceptionK], 1⟩
        (fun i => (.error ⟨ValueErrorType, i⟩ : Except Exc Nat))).outcome =
      .raised ⟨ValueErrorType, 2⟩ :=
  C1_exhaustion_runs_all_tries .sync ⟨3, 0, [exceptionK], 1⟩
    (fun i => (.error ⟨ValueErrorType, i⟩ : Except Exc Nat)) ⟨ValueErrorType, 2⟩
    (by decide) (fun i _ => ⟨⟨ValueErrorType, i⟩, rfl, rfl⟩) rfl

/-- C2: for every configuration and every operation that fails with retryable
failures on attempts 1..K-1 and succeeds on attempt K (1 ≤ K ≤ tries), the
wrapper — in either mode — invokes the operation exactly K times, returns the
Kth-attempt value, and propagates no failure. -/
theorem C2_success_on_attempt_K (m : Mode) (cfg : Config)
    (op : Nat → Except Exc α) (K : Nat) (v : α) (h1 : 1 ≤ K)
    (hK : K ≤ cfg.tries)
    (hfail : ∀ i, i < K - 1 →
      ∃ e, op i = .error e ∧ catches cfg.exceptions e = true)
    (hok : op (K - 1) = .ok v) :
    (__repeat__ m cfg op).outcome = .ok v ∧
    (__repeat__ m cfg op).invocations = K := by
  have hs := syncLoop_succeeds op cfg.exceptions cfg.tries cfg.backoff v
    cfg.tries (K - 1) 0 cfg.delay none (Nat.zero_add _) (by omega)
    (fun j _ hj2 => hfail j (by omega)) (by simpa using hok)
  rw [repeat_outcome, repeat_invocations]
  refine ⟨hs.1, ?_⟩
  have h2 : (wrapper_sync cfg op).invocations = K - 1 + 1 := hs.2
  omega

/-- Witness for C2: `tries = 3`, failure on the first attempt, success with 42
on the second: outcome 42 after exactly 2 invocations. -/
theorem C2_success_on_attempt_K_witness :
    (__repeat__ .async ⟨3, 0, [exceptionK], 1⟩
        (fun i => if i = 0 then .error ⟨ValueErrorType, 0⟩ else .ok 42)).outcome =
      .ok 42 ∧
    (__repeat__ .async ⟨3, 0, [exceptionK], 1⟩
        (fun i => if i = 0 then .error ⟨ValueErrorType, 0⟩ else .ok 42)).invocations = 2 :=
  C2_success_on_attempt_K .async ⟨3, 0, [exceptionK], 1⟩
    (fun i => if i = 0 then .error ⟨ValueErrorType, 0⟩ else .ok 42) 2 42
    (by decide) (by decide)
    (fun i hi => by
      have h0 : i = 0 := by omega
      subst h0
      exact ⟨⟨ValueErrorType, 0⟩, rfl, rfl⟩)
    rfl

/-- C3: for every configuration (with at least one allowed attempt), a failure
whose kind the configured `exceptions` filter does not match propagates
immediately and unmodified on the very first attempt — one invocation, no
sleep, no retry log — in either mode, regardless of `tries`. -/
theorem C3_nonretryable_fail_fast (m : Mode) (cfg : Config)
    (op : Nat → Except Exc α) (e : Exc) (h1 : 1 ≤ cfg.tries)
    (hop : op 0 = .error e) (hnc : catches cfg.exceptions e = false) :
    __repeat__ m cfg op = ⟨.raised e, 1, [], []⟩ := by
  cases m
  · exact wrapper_sync_uncaught_first cfg op e h1 hop hnc
  · exact wrapper_async_uncaught_first cfg op e h1 hop hnc

/-- Witness for C3: `tries = 3` with `exceptions = (ValueError,)`; a
`RuntimeError` raised on the first attempt escapes at once with one
invocation, no sleep and no log. -/
theorem C3_nonretryable_fail_fast_witness :
    __repeat__ .sync ⟨3, 7, [3], 2⟩
        (fun _ => (.error ⟨RuntimeErrorType, 9⟩ : Except Exc Nat)) =
      ⟨.raised ⟨RuntimeErrorType, 9⟩, 1, [], []⟩ :=
  C3_nonretryable_fail_fast .sync ⟨3, 7, [3], 2⟩
    (fun _ => (.error ⟨RuntimeErrorType, 9⟩ : Except Exc Nat))
    ⟨RuntimeErrorType, 9⟩ (by decide) rfl rfl

/-- C4: a caught failure is classified as retryable iff its runtime type is,
or is a subtype of, one of the configured failure kinds; under the default
configuration (`exceptions = Exception`) every failure deriving from
`Exception` is retryable. -/
theorem C4_retryable_classification (excs : List Nat) (e : Exc) :
    (catches excs e = true ↔ ∃ k ∈ excs, isSubclass e.ty k = true) ∧
    (isSubclass e.ty exceptionK = true →
      catches ({} : Config).exceptions e = true) := by
  constructor
  · simp [catches, List.any_eq_true]
  · intro h
    show catches [exceptionK] e = true
    simp [catches, h]

/-- Witness for C4: a `ValueError` (id 3, deriving from `Exception`) is caught
by the default filter. -/
theorem C4_retryable_classification_witness :
    catches ({} : Config).exceptions ⟨ValueErrorType, 7⟩ = true ∧
    catches [3] ⟨ValueErrorType, 7⟩ = true :=
  ⟨(C4_retryable_classification [3] ⟨ValueErrorType, 7⟩).2 rfl,
   (C4_retryable_classification [3] ⟨ValueErrorType, 7⟩).1.mpr ⟨3, by decide, rfl⟩⟩

/-- C5: every failure that escapes the wrapper, in either mode, is the exact
exception object the operation raised on the wrapper's final invocation —
never the wrapper's own synthetic `raise None` failure. -/
theorem C5_original_failure_escapes (m : Mode) (cfg : Config)
    (op : Nat → Except Exc α) (h1 : 1 ≤ cfg.tries) :
    (∀ e, (__repeat__ m cfg op).outcome = .raised e →
      op ((__repeat__ m cfg op).invocations - 1) = .error e) ∧
    (__repeat__ m cfg op).outcome ≠ .raiseNone := by
  rw [repeat_outcome, repeat_invocations]
  constructor
  · intro e h
    rcases syncLoop_raised op cfg.exceptions cfg.tries cfg.backoff cfg.tries 0
        cfg.delay none e h with ⟨hsome, _⟩ | ⟨hpos, hat⟩
    · exact absurd hsome (by simp)
    · have : op (0 + (wrapper_sync cfg op).invocations - 1) = .error e := hat
      simpa using this
  · intro h
    have h0 := syncLoop_raiseNone op cfg.exceptions cfg.tries cfg.backoff
      cfg.tries 0 cfg.delay none h
    omega

/-- Witness for C5: `tries = 2` on an always-failing operation whose payload
is the attempt index: the escaped exception is the one raised by the final
(second) invocation, and the outcome is not the wrapper's own failure. -/
theorem C5_original_failure_escapes_witness :
    (fun i => (.error ⟨ValueErrorType, i⟩ : Except Exc Nat))
        ((__repeat__ .sync ⟨2, 0, [exceptionK], 1⟩
          (fun i => (.error ⟨ValueErrorType, i⟩ : Except Exc Nat))).invocations - 1) =
      .error ⟨ValueErrorType, 1⟩ ∧
    (__repeat__ .sync ⟨2, 0, [exceptionK], 1⟩
        (fun i => (.error ⟨ValueErrorType, i⟩ : Except Exc Nat))).outcome ≠
      .raiseNone :=
  ⟨(C5_original_failure_escapes .sync ⟨2, 0, [exceptionK], 1⟩
      (fun i => (.error ⟨ValueErrorType, i⟩ : Except Exc Nat)) (by decide)).1
      ⟨ValueErrorType, 1⟩ rfl,
   (C5_original_failure_escapes .sync ⟨2, 0, [exceptionK], 1⟩
      (fun i => (.error ⟨ValueErrorType, i⟩ : Except Exc Nat)) (by decide)).2⟩

/-- C6: with `delay = d0 > 0` and `backoff = b > 0` on an always-failing
retryable operation, the blocking wrapper sleeps once between consecutive
attempts, and the wait before (1-based) attempt `i + 1` equals
`d0 * b ^ (i - 1)`: the waits are exactly `d0 * b ^ 0, …, d0 * b ^ (tries-2)`,
for `tries` invocations in total. -/
theorem C6_exponential_backoff (cfg : Config) (op : Nat → Except Exc α)
    (h1 : 1 ≤ cfg.tries) (hd : 0 < cfg.delay) (hb : 0 < cfg.backoff)
    (hfail : ∀ i, i < cfg.tries →
      ∃ e, op i = .error e ∧ catches cfg.exceptions e = true) :
    (wrapper_sync cfg op).waits =
      (List.range (cfg.tries - 1)).map
        (fun j => Wait.block (cfg.delay * cfg.backoff ^ j)) ∧
    (wrapper_sync cfg op).invocations = cfg.tries := by
  have hw := syncLoop_allFail_waits op cfg.exceptions cfg.tries cfg.backoff hb
    cfg.tries 0 cfg.delay none (Nat.zero_add _) h1 hd (fun j _ hj => hfail j hj)
  obtain ⟨eN, hop, _⟩ := hfail (cfg.tries - 1) (by omega)
  have hi := syncLoop_allFail op cfg.exceptions cfg.tries cfg.backoff eN hop
    cfg.tries 0 cfg.delay none (Nat.zero_add _) h1 (fun j _ hj => hfail j hj)
  exact ⟨hw, hi.2⟩

/-- Witness for C6, the spec's concrete scenario: `delay = 0.5`,
`backoff = 2.0`, `tries = 3` on an always-failing operation yields waits of
0.5 then 1.0 — two waits, three invocations. -/
theorem C6_exponential_backoff_witness :
    (wrapper_sync ⟨3, 1/2, [exceptionK], 2⟩
        (fun i => (.error ⟨ValueErrorType, i⟩ : Except Exc Nat))).waits =
      [Wait.block (1/2), Wait.block 1] ∧
    (wrapper_sync ⟨3, 1/2, [exceptionK], 2⟩
        (fun i => (.error ⟨ValueErrorType, i⟩ : Except Exc Nat))).invocations = 3 := by
  have h := C6_exponential_backoff ⟨3, 1/2, [exceptionK], 2⟩
    (fun i => (.error ⟨ValueErrorType, i⟩ : Except Exc Nat))
    (by decide) (by norm_num) (by norm_num)
    (fun i _ => ⟨⟨ValueErrorType, i⟩, rfl, rfl⟩)
  refine ⟨h.1.trans ?_, h.2⟩
  show (List.range 2).map _ = _
  simp [List.range_succ]

/-- C7: for the same configuration and the same per-attempt outcome sequence,
the blocking-mode and suspending-mode wrappers produce the same invocation
count, the same final outcome and the same log output; their wait traces agree
up to how each wait is realized (thread block vs task suspension). -/
theorem C7_sync_async_equivalent (cfg : Config) (op : Nat → Except Exc α) :
    (wrapper_async cfg op).outcome = (wrapper_sync cfg op).outcome ∧
    (wrapper_async cfg op).invocations = (wrapper_sync cfg op).invocations ∧
    (wrapper_async cfg op).logs = (wrapper_sync cfg op).logs ∧
    (wrapper_async cfg op).waits = ((wrapper_sync cfg op).waits).map retagWait := by
  rw [wrapper_async_eq]
  exact ⟨rfl, rfl, rfl, rfl⟩

/-- C8: binding with zero options behaves identically, on every operation and
in either mode, to binding with the explicit options
`tries = 5, delay = 0, exceptions = Exception, backoff = 1.0`. -/
theorem C8_defaults_explicit (m : Mode) (op : Nat → Except Exc α) :
    __repeat__ m ({} : Config) op = __repeat__ m ⟨5, 0, [exceptionK], 1⟩ op :=
  rfl

/-- C10: if the wrapper is bound with `tries = 0`, then in both modes the
underlying operation runs zero times and the wrapper fails by executing
`raise last_exception` while `last_exception` is still `None` — the caller
receives the wrapper's own error, with no waits and no logs. -/
theorem C10_zero_tries_raise_none (m : Mode) (cfg : Config)
    (op : Nat → Except Exc α) (h0 : cfg.tries = 0) :
    __repeat__ m cfg op = ⟨.raiseNone, 0, [], []⟩ := by
  have hs : wrapper_sync cfg op = ⟨.raiseNone, 0, [], []⟩ := by
    show syncLoop op cfg.exceptions cfg.tries cfg.backoff cfg.tries 0 cfg.delay none = _
    rw [h0]
    rfl
  cases m
  · exact hs
  · show wrapper_async cfg op = _
    rw [wrapper_async_eq, hs]
    rfl

/-- Witness for C10: `tries = 0` with an operation that would succeed: zero
invocations and the wrapper's own `raise None` failure. -/
theorem C10_zero_tries_raise_none_witness :
    __repeat__ .async ⟨0, 17, [exceptionK], 3⟩ (fun _ => (.ok 5 : Except Exc Nat)) =
      ⟨.raiseNone, 0, [], []⟩ :=
  C10_zero_tries_raise_none .async ⟨0, 17, [exceptionK], 3⟩
    (fun _ => (.ok 5 : Except Exc Nat)) rfl

/-- With no cancellation delivered at any delay suspension point, the
cancellation-aware loop is exactly the plain suspending loop. -/
lemma asyncLoopCancel_none (op : Nat → Except Exc α) (excs : List Nat)
    (tries : Nat) (b : ℚ) :
    ∀ fuel attempt d lx,
      asyncLoopCancel op (fun _ => none) excs tries b fuel attempt d lx =
      asyncLoop op excs tries b fuel attempt d lx := by
  intro fuel
  induction fuel with
  | zero => intro attempt d lx; cases lx <;> rfl
  | succ n ih =>
    intro attempt d lx
    cases hop : op attempt with
    | ok v => simp [asyncLoopCancel, asyncLoop, hop]
    | error ex =>
      by_cases hc : catches excs ex
      · by_cases ha : attempt < tries - 1
        · by_cases hd : 0 < d <;>
            simp [asyncLoopCancel, asyncLoop, hop, hc, ha, hd, ih]
        · simp [asyncLoopCancel, asyncLoop, hop, hc, ha, ih]
      · simp [asyncLoopCancel, asyncLoop, hop, hc]

/-- One-step equation: a caught non-final failure followed by a sleep into
which the scheduler delivers `c` — the warning is already logged, the sleep is
interrupted, and `c` escapes the wrapper with no further attempt. -/
lemma asyncLoopCancel_interrupted (op : Nat → Except Exc α)
    (sleepAt : Nat → Option Exc) (excs : List Nat) (tries : Nat) (b : ℚ)
    (fuel attempt : Nat) (d : ℚ) (lx : Option Exc) (ex c : Exc)
    (hop : op attempt = .error ex) (hc : catches excs ex = true)
    (ha : attempt < tries - 1) (hd : 0 < d) (hs : sleepAt attempt = some c) :
    asyncLoopCancel op sleepAt excs tries b (fuel + 1) attempt d lx =
      ⟨.raised c, 1, [], [LogMsg.warning (attempt + 1) tries ex d]⟩ := by
  simp [asyncLoopCancel, hop, hc, ha, hd, hs]

/-- One-step equation: a caught non-final failure whose sleep completes
undisturbed — warning, one full wait, delay multiplied, retry. -/
lemma asyncLoopCancel_sleeps (op : Nat → Except Exc α)
    (sleepAt : Nat → Option Exc) (excs : List Nat) (tries : Nat) (b : ℚ)
    (fuel attempt : Nat) (d : ℚ) (lx : Option Exc) (ex : Exc)
    (hop : op attempt = .error ex) (hc : catches excs ex = true)
    (ha : attempt < tries - 1) (hd : 0 < d) (hs : sleepAt attempt = none) :
    asyncLoopCancel op sleepAt excs tries b (fuel + 1) attempt d lx =
      ⟨(asyncLoopCancel op sleepAt excs tries b fuel (attempt + 1) (d * b) (some ex)).outcome,
       (asyncLoopCancel op sleepAt excs tries b fuel (attempt + 1) (d * b) (some ex)).invocations + 1,
       Wait.susp d ::
         (asyncLoopCancel op sleepAt excs tries b fuel (attempt + 1) (d * b) (some ex)).waits,
       LogMsg.warning (attempt + 1) tries ex d ::
         (asyncLoopCancel op sleepAt excs tries b fuel (attempt + 1) (d * b) (some ex)).logs⟩ := by
  simp [asyncLoopCancel, hop, hc, ha, hd, hs]

/-- If attempts `0..k` of the remaining window fail with caught exceptions,
every earlier sleep completes, and the scheduler delivers `c` during the sleep
that follows attempt `k` (a non-final attempt, positive delays throughout),
then `c` escapes the wrapper after exactly `k + 1` invocations: it is not
caught, not classified, not retried — under any `exceptions` filter. -/
lemma asyncLoopCancel_cancel_in_delay (op : Nat → Except Exc α)
    (sleepAt : Nat → Option Exc) (excs : List Nat) (tries : Nat) (b : ℚ)
    (c : Exc) (hb : 0 < b) :
    ∀ k fuel attempt d lx, attempt + fuel = tries → attempt + k < tries - 1 →
      0 < d →
      (∀ j, attempt ≤ j → j ≤ attempt + k → ∃ e, op j = .error e ∧ catches excs e = true) →
      (∀ j, attempt ≤ j → j < attempt + k → sleepAt j = none) →
      sleepAt (attempt + k) = some c →
      (asyncLoopCancel op sleepAt excs tries b fuel attempt d lx).outcome = .raised c ∧
      (asyncLoopCancel op sleepAt excs tries b fuel attempt d lx).invocations = k + 1 := by
  intro k
  induction k with
  | zero =>
    intro fuel attempt d lx htot hk hd hfail hnone hcan
    obtain ⟨f, rfl⟩ : ∃ f, fuel = f + 1 := ⟨fuel - 1, by omega⟩
    obtain ⟨e, hop, hcatch⟩ := hfail attempt (Nat.le_refl _) (by omega)
    have ha : attempt < tries - 1 := by omega
    rw [asyncLoopCancel_interrupted op sleepAt excs tries b f attempt d lx e c
      hop hcatch ha hd (by simpa using hcan)]
    exact ⟨rfl, rfl⟩
  | succ n ih =>
    intro fuel attempt d lx htot hk hd hfail hnone hcan
    obtain ⟨f, rfl⟩ : ∃ f, fuel = f + 1 := ⟨fuel - 1, by omega⟩
    obtain ⟨e, hop, hcatch⟩ := hfail attempt (Nat.le_refl _) (by omega)
    have ha : attempt < tries - 1 := by omega
    have hs0 : sleepAt attempt = none := hnone attempt (Nat.le_refl _) (by omega)
    have hrest := ih f (attempt + 1) (d * b) (some e) (by omega) (by omega)
      (mul_pos hd hb)
      (fun j hj hj2 => hfail j (by omega) (by omega))
      (fun j hj hj2 => hnone j (by omega) (by omega))
      (by rw [show attempt + 1 + n = attempt + (n + 1) from by omega]; exact hcan)
    rw [asyncLoopCancel_sleeps op sleepAt excs tries b f attempt d lx e
      hop hcatch ha hd hs0]
    exact ⟨hrest.1, by rw [show (⟨_, _, _, _⟩ : RunResult α).invocations =
      (asyncLoopCancel op sleepAt excs tries b f (attempt + 1) (d * b) (some e)).invocations + 1
      from rfl, hrest.2]⟩

/-- C9 counterexample: the claim quantifies over every configuration, but the
suspending wrapper's `except exceptions` clause applies to whatever classes
are configured. With `exceptions = (BaseException,)` and `tries = 2`, a
`CancelledError` delivered during the operation call is caught, classified as
retryable (a retry warning is logged) and the operation is retried — two
invocations — instead of the cancellation propagating out on first delivery. -/
theorem C9_counterexample_cancellation_retried :
    (wrapper_async ⟨2, 0, [baseExceptionK], 1⟩
        (fun _ => (.error ⟨CancelledErrorType, 0⟩ : Except Exc Nat))).invocations = 2 ∧
    (wrapper_async ⟨2, 0, [baseExceptionK], 1⟩
        (fun _ => (.error ⟨CancelledErrorType, 0⟩ : Except Exc Nat))).logs =
      [LogMsg.warning 1 2 ⟨CancelledErrorType, 0⟩ 0,
       LogMsg.error 2 ⟨CancelledErrorType, 0⟩] := by
  constructor <;> rfl

/-- C9 (amended): in suspending mode, a task-cancellation signal delivered
during the inter-attempt delay propagates out of the wrapper — not caught,
not classified as retryable, not retried — under every configuration, because
the sleep sits inside the `except` handler, outside the `try`; a
task-cancellation signal delivered during the operation call likewise
propagates for every configuration whose `exceptions` filter does not match
the cancellation — in particular under the default filter (`Exception`),
which never matches `CancelledError` (it derives only from `BaseException`) —
while a configuration explicitly listing `BaseException` or `CancelledError`
catches and retries a cancellation raised at the operation-call point. -/
theorem C9_cancellation_propagates (cfg : Config) (op : Nat → Except Exc α)
    (sleepAt : Nat → Option Exc) (c : Exc) (k : Nat)
    (_hckind : isSubclass c.ty cancelledErrorK = true)
    (hd : 0 < cfg.delay) (hb : 0 < cfg.backoff) (hk : k < cfg.tries - 1)
    (hfail : ∀ j, j ≤ k → ∃ e, op j = .error e ∧ catches cfg.exceptions e = true)
    (hnone : ∀ j, j < k → sleepAt j = none)
    (hcan : sleepAt k = some c) :
    ((wrapper_async_cancel cfg op sleepAt).outcome = .raised c ∧
     (wrapper_async_cancel cfg op sleepAt).invocations = k + 1) ∧
    (∀ (cfg2 : Config) (op2 : Nat → Except Exc α) (c2 : Exc),
      isSubclass c2.ty cancelledErrorK = true → 1 ≤ cfg2.tries →
      catches cfg2.exceptions c2 = false → op2 0 = .error c2 →
      wrapper_async cfg2 op2 = ⟨.raised c2, 1, [], []⟩) ∧
    (∀ p, catches ({} : Config).exceptions ⟨CancelledErrorType, p⟩ = false) := by
  refine ⟨?_, ?_, fun _ => rfl⟩
  · exact asyncLoopCancel_cancel_in_delay op sleepAt cfg.exceptions cfg.tries
      cfg.backoff c hb k cfg.tries 0 cfg.delay none (Nat.zero_add _) (by omega)
      hd (fun j _ hj2 => hfail j (by omega))
      (fun j _ hj2 => hnone j (by omega))
      (by rw [Nat.zero_add]; exact hcan)
  · intro cfg2 op2 c2 _ h1 hnc hop
    exact wrapper_async_uncaught_first cfg2 op2 c2 h1 hop hnc

/-- Witness for the amended C9. Delay point: `tries = 3, delay = 0.5,
backoff = 2`, retryable `ValueError` on every attempt, the sleep after the
second attempt interrupted by a `CancelledError`: the cancellation escapes
after exactly 2 invocations even though the filter would retry the
`ValueError`. Call point: under the default configuration a `CancelledError`
raised by the operation escapes at once with one invocation and no log. -/
theorem C9_cancellation_propagates_witness :
    ((wrapper_async_cancel ⟨3, 1/2, [exceptionK], 2⟩
        (fun i => (.error ⟨ValueErrorType, i⟩ : Except Exc Nat))
        (fun j => if j = 1 then some ⟨CancelledErrorType, 5⟩ else none)).outcome =
      .raised ⟨CancelledErrorType, 5⟩ ∧
     (wrapper_async_cancel ⟨3, 1/2, [exceptionK], 2⟩
        (fun i => (.error ⟨ValueErrorType, i⟩ : Except Exc Nat))
        (fun j => if j = 1 then some ⟨CancelledErrorType, 5⟩ else none)).invocations = 2) ∧
    wrapper_async ⟨5, 0, [exceptionK], 1⟩
        (fun _ => (.error ⟨CancelledErrorType, 7⟩ : Except Exc Nat)) =
      ⟨.raised ⟨CancelledErrorType, 7⟩, 1, [], []⟩ ∧
    (∀ p, catches ({} : Config).exceptions ⟨CancelledErrorType, p⟩ = false) := by
  have h := C9_cancellation_propagates ⟨3, 1/2, [exceptionK], 2⟩
    (fun i => (.error ⟨ValueErrorType, i⟩ : Except Exc Nat))
    (fun j => if j = 1 then some ⟨CancelledErrorType, 5⟩ else none)
    ⟨CancelledErrorType, 5⟩ 1 rfl
    (by norm_num : (0:ℚ) < 1/2) (by norm_num : (0:ℚ) < 2) (by decide)
    (fun j _ => ⟨⟨ValueErrorType, j⟩, rfl, rfl⟩)
    (fun j hj => by
      have h0 : j = 0 := by omega
      subst h0
      rfl)
    rfl
  exact ⟨h.1, h.2.1 ⟨5, 0, [exceptionK], 1⟩
    (fun _ => (.error ⟨CancelledErrorType, 7⟩ : Except Exc Nat))
    ⟨CancelledErrorType, 7⟩ rfl (by decide) rfl rfl, h.2.2⟩

end RepeatPy
